import Mathlib

/-!
# Verification of the `DownloadManager` transfer engine of `distroget.py`

This file gives a shallow embedding of the concurrent transfer engine of
`distroget.py` (class `DownloadManager`, the function `_download_file`, the
worker loop `_worker`, `add_download` and `get_status`) and settles the
claims of the specification against it.

Modelling choices, from the source:

* URLs, directories and file paths are `String`s; `filenameOf` mirrors
  `url.split('/')[-1]`.
* The filesystem is an association list of path to `FileKind`: a fully
  written file or a truncated one left behind by a failed stream
  (`os.path.exists` is true for either kind).
* The network behaviour of one `requests.get` call is an oracle value
  `NetResult`: the response line fails (`raise_for_status` raises before a
  file is opened), the body streams completely, or the connection drops
  mid-stream after part of the body was written.
* `download_file` embeds `DownloadManager._download_file`: the local-mode
  existing-file short circuit, the write of the body, and in remote mode the
  `scp` invocation (run with `check=False`, its result ignored) followed by
  the unconditional `os.remove` of the staging file.  The `fetched` field of
  the result records whether `requests.get` was reached.
* The worker loop, `add_download` and the queue are embedded as a
  small-step machine `wstep` over `MState`.  Each atomic step of the
  machine corresponds to one region in which the Python code either holds
  `self.lock` or performs a single operation on the synchronized
  `queue.Queue`; every state between steps is therefore an observable
  instant in the sense of the specification (the lock is free there).
* `get_status` is embedded twice: `get_status` returns the key/value pairs
  of the Python dict built at `distroget.py:774` (to reason about which
  fields the snapshot has), and `get_status_refs` works over an explicit
  heap of mutable per-URL record objects to reason about the aliasing
  created by the shallow `dict(self.active_downloads)` copy.
-/

/-- `url.split('/')[-1]` of `DownloadManager._worker`: the characters
after the last `/` (the whole string when there is no `/`, empty when the
URL ends in `/`). -/
def filenameOf (url : String) : String :=
  ⟨url.data.foldl (fun acc c => if c = '/' then [] else acc ++ [c]) []⟩

/-- `os.path.join` as used by `_download_file` (POSIX join of a directory
and a bare filename). -/
def joinPath (d f : String) : String := d ++ "/" ++ f

/-- The state of a file on disk: fully written, or truncated because the
stream failed mid-body.  `os.path.exists` is true for both. -/
inductive FileKind
  | full
  | truncated
deriving DecidableEq, Repr

/-- The filesystem: paths that exist, with their state. -/
abbrev FS := List (String × FileKind)

/-- Association-list lookup (Python `dict.get`). -/
def lookupA {α : Type} : List (String × α) → String → Option α
  | [], _ => none
  | (a, b) :: t, k => if a = k then some b else lookupA t k

/-- Association-list update (Python `dict[k] = v`). -/
def setA {α : Type} : List (String × α) → String → α → List (String × α)
  | [], k, v => [(k, v)]
  | (a, b) :: t, k, v => if a = k then (k, v) :: t else (a, b) :: setA t k v

/-- Association-list deletion (Python `del dict[k]`). -/
def eraseA {α : Type} : List (String × α) → String → List (String × α)
  | [], _ => []
  | (a, b) :: t, k => if a = k then eraseA t k else (a, b) :: eraseA t k

/-- Key membership in an association list (Python `k in dict`). -/
def hasKeyA {α : Type} (l : List (String × α)) (k : String) : Prop :=
  (lookupA l k).isSome

instance {α : Type} (l : List (String × α)) (k : String) :
    Decidable (hasKeyA l k) := by unfold hasKeyA; infer_instance

/-- Python `set.add` on a set modelled as a duplicate-free list. -/
def insertSet (u : String) (l : List String) : List String :=
  if u ∈ l then l else u :: l

/-- `os.path.exists` over the modelled filesystem. -/
def fsHas (fs : FS) (p : String) : Prop := hasKeyA fs p

instance (fs : FS) (p : String) : Decidable (fsHas fs p) := by
  unfold fsHas; infer_instance

/-- Writing (creating or overwriting) a file. -/
def fsSet (fs : FS) (p : String) (k : FileKind) : FS := setA fs p k

/-- `os.remove`. -/
def fsRemove (fs : FS) (p : String) : FS := eraseA fs p

/-- The outcome of the single `requests.get(url, stream=True, ...)` call a
download attempt makes: the response line is an error (`raise_for_status`
raises, no file is opened), the body streams to the end, or the connection
drops mid-body after some chunks were written. -/
inductive NetResult
  | httpFail
  | okStream
  | midStreamFail
deriving DecidableEq, Repr

/-- Per-manager configuration: `is_remote`, `target_dir`, the
`tempfile.gettempdir()` staging directory, and `max_retries` (3 in
`DownloadManager.__init__`). -/
structure Config where
  is_remote : Bool
  target_dir : String
  tmp_dir : String
  max_retries : Nat
deriving DecidableEq, Repr

/-- The local path `_download_file` writes to for a URL. -/
def localPath (cfg : Config) (url : String) : String :=
  if cfg.is_remote then joinPath cfg.tmp_dir (filenameOf url)
  else joinPath cfg.target_dir (filenameOf url)

/-- Result of one call to `_download_file`: the filesystem afterwards,
whether the call returned normally (`ok = true`) or raised, and whether
`requests.get` was reached (`fetched = false` exactly when the
existing-file short circuit returned early). -/
structure DlResult where
  fs : FS
  ok : Bool
  fetched : Bool
deriving DecidableEq, Repr

/-- Embedding of `DownloadManager._download_file` (distroget.py:735-768).

In local mode, if the destination path exists the function returns before
any request is made.  Otherwise the body is streamed to the destination;
a non-2xx response raises before the file is opened, a mid-stream drop
leaves a truncated file and raises.  In remote mode there is no existence
check; after a full stream the file is handed to `scp` (run with
`check=False`, so a failed copy raises nothing) and then unconditionally
removed with `os.remove`.  `scp_ok` is the outcome of the `scp` process. -/
def download_file (cfg : Config) (fs : FS) (url : String)
    (net : NetResult) (scp_ok : Bool) : DlResult :=
  let p := localPath cfg url
  if ¬cfg.is_remote ∧ fsHas fs p then
    { fs := fs, ok := true, fetched := false }
  else
    match net with
    | .httpFail => { fs := fs, ok := false, fetched := true }
    | .midStreamFail =>
        { fs := fsSet fs p .truncated, ok := false, fetched := true }
    | .okStream =>
        let fs1 := fsSet fs p .full
        if cfg.is_remote then
          { fs := fsRemove fs1 p, ok := true, fetched := true }
        else
          { fs := fs1, ok := true, fetched := true }

/-- The mutable per-URL record `{'filename': ..., 'progress': ..., 'total':
...}` stored in `active_downloads`. -/
structure ActiveRec where
  filename : String
  progress : Nat
  total : Nat
deriving DecidableEq, Repr

/-- What the single worker of the machine is doing: idle, holding a URL it
dequeued but has not yet claimed into `active_downloads` (the window
between `queue.get` returning and the `with self.lock` block), or busy
downloading a claimed URL. -/
inductive WorkerPhase
  | idle
  | got (u : String)
  | busy (u : String)
deriving DecidableEq, Repr

/-- The shared state of a `DownloadManager` plus the phase of one worker
and the filesystem.  `completed` and `completed_urls`, `failed` are the
Python sets, modelled as duplicate-free lists; `retry_counts` is the dict
of retry attempts; `queue` is the `queue.Queue` contents in order. -/
structure MState where
  queue : List String
  active : List (String × ActiveRec)
  completed : List String
  completed_urls : List String
  failed : List String
  retry_counts : List (String × Nat)
  phase : WorkerPhase
  fs : FS
deriving DecidableEq, Repr

/-- The initial state of a freshly constructed manager over a given
filesystem. -/
def init (fs0 : FS) : MState :=
  { queue := [], active := [], completed := [], completed_urls := [],
    failed := [], retry_counts := [], phase := .idle, fs := fs0 }

/-- One atomic step of the system.  `submit` is `add_download` (callable
at any time), `dequeue` is the worker's `queue.get`, `claim` is the lock
region that installs the URL in `active_downloads`, and `finish net scp`
is the whole tail of one loop iteration: the `_download_file` call with
network behaviour `net` and `scp` outcome `scp`, followed by the locked
success or except block. -/
inductive WAction
  | submit (u : String)
  | dequeue
  | claim
  | finish (net : NetResult) (scp : Bool)
deriving DecidableEq, Repr

/-- Embedding of `add_download` and `_worker` (distroget.py:692-772) as a
step function.  Each case mirrors one lock-protected (or queue-internal)
region of the source; an action whose precondition does not hold leaves
the state unchanged. -/
def wstep (cfg : Config) (s : MState) : WAction → MState
  | .submit u => { s with queue := s.queue ++ [u] }
  | .dequeue =>
      match s.phase, s.queue with
      | .idle, u :: rest => { s with queue := rest, phase := .got u }
      | _, _ => s
  | .claim =>
      match s.phase with
      | .got u =>
          { s with phase := .busy u,
                   active := setA s.active u ⟨filenameOf u, 0, 0⟩ }
      | _ => s
  | .finish net scp =>
      match s.phase with
      | .busy u =>
          let r := download_file cfg s.fs u net scp
          if r.ok then
            { s with fs := r.fs,
                     completed := insertSet u s.completed,
                     completed_urls := insertSet u s.completed_urls,
                     active := eraseA s.active u,
                     retry_counts := eraseA s.retry_counts u,
                     phase := .idle }
          else
            let rc := (lookupA s.retry_counts u).getD 0
            if rc < cfg.max_retries then
              { s with fs := r.fs,
                       retry_counts := setA s.retry_counts u (rc + 1),
                       queue := s.queue ++ [u],
                       active := eraseA s.active u,
                       phase := .idle }
            else
              { s with fs := r.fs,
                       failed := insertSet u s.failed,
                       active := eraseA s.active u,
                       phase := .idle }
      | _ => s

/-- Running a sequence of atomic steps. -/
def run (cfg : Config) (s : MState) (t : List WAction) : MState :=
  t.foldl (wstep cfg) s

/-- A local-mode configuration with the defaults of
`DownloadManager.__init__` (`max_retries = 3`). -/
def localCfg (dir : String) : Config :=
  { is_remote := false, target_dir := dir, tmp_dir := "/tmp",
    max_retries := 3 }

/-- A remote-mode configuration (`is_remote = True`, staging in the
temporary directory, `max_retries = 3`). -/
def remoteCfg (tmp : String) : Config :=
  { is_remote := true, target_dir := "", tmp_dir := tmp, max_retries := 3 }

/-! ## The status snapshot, as a Python dict (which keys exist) -/

/-- A value stored in the dict `get_status` returns. -/
inductive StatusVal
  | nat (n : Nat)
  | urlSet (l : List String)
  | countMap (l : List (String × Nat))
  | activeMap (l : List (String × ActiveRec))
deriving DecidableEq, Repr

/-- Embedding of `DownloadManager.get_status` (distroget.py:774-784) as
the list of key/value pairs of the dict it builds: exactly the six keys
`active`, `completed`, `completed_urls`, `failed`, `retry_counts`,
`queued`, in source order. -/
def get_status (s : MState) : List (String × StatusVal) :=
  [("active", .activeMap s.active),
   ("completed", .nat s.completed.length),
   ("completed_urls", .urlSet s.completed_urls),
   ("failed", .nat s.failed.length),
   ("retry_counts", .countMap s.retry_counts),
   ("queued", .nat s.queue.length)]

/-! ## The status snapshot, at the level of object references

`get_status` returns `dict(self.active_downloads)`: a new outer dict whose
values are the *same* per-URL record objects the workers mutate in place
(the chunk loop of `_download_file` assigns
`self.active_downloads[url]['progress'] = downloaded`).  To reason about
this aliasing we model the per-URL records as objects in a heap addressed
by `Nat` references; `active_downloads` maps URLs to references. -/

/-- A heap of mutable `ActiveRec` objects. -/
abbrev Heap := List (Nat × ActiveRec)

/-- Dereference (a missing address reads as a dummy record; the source
never follows a dangling reference). -/
def heapRead (h : Heap) (r : Nat) : ActiveRec :=
  match h with
  | [] => ⟨"", 0, 0⟩
  | (a, v) :: t => if a = r then v else heapRead t r

/-- In-place mutation of the object at address `r`, e.g. the observer
executing `snapshot['active'][url]['progress'] = n`. -/
def heapWrite (h : Heap) (r : Nat) (v : ActiveRec) : Heap :=
  match h with
  | [] => []
  | (a, w) :: t => if a = r then (a, v) :: t else (a, w) :: heapWrite t r v

/-- The reference-level view of a manager: `active_downloads` maps each
URL to the address of its record object. -/
structure ManagerRefs where
  active : List (String × Nat)
  completed : List String
  completed_urls : List String
  failed : List String
  retry_counts : List (String × Nat)
  queue : List String
deriving DecidableEq, Repr

/-- The snapshot dict at the reference level.  `active` is
`dict(self.active_downloads)` (fresh outer dict, shared record addresses);
`completed_urls` is `set(...)` of immutable strings; `retry_counts` is
`dict(...)` of immutable ints; `completed`, `failed`, `queued` are ints. -/
structure StatusRefs where
  active : List (String × Nat)
  completed : Nat
  completed_urls : List String
  failed : Nat
  retry_counts : List (String × Nat)
  queued : Nat
deriving DecidableEq, Repr

/-- Embedding of `get_status` at the reference level: the outer containers
are copied (fresh list values here), the addresses inside `active` are
not. -/
def get_status_refs (m : ManagerRefs) : StatusRefs :=
  { active := m.active,
    completed := m.completed.length,
    completed_urls := m.completed_urls,
    failed := m.failed.length,
    retry_counts := m.retry_counts,
    queued := m.queue.length }

/-- The fully dereferenced contents of a snapshot: every record read
through the snapshot's references. -/
structure StatusView where
  active : List (String × ActiveRec)
  completed : Nat
  completed_urls : List String
  failed : Nat
  retry_counts : List (String × Nat)
  queued : Nat
deriving DecidableEq, Repr

/-- The fully dereferenced value of a snapshot: what an observer sees when
it reads every record through the snapshot under a given heap. -/
def statusValue (h : Heap) (st : StatusRefs) : StatusView :=
  { active := st.active.map (fun p => (p.1, heapRead h p.2)),
    completed := st.completed,
    completed_urls := st.completed_urls,
    failed := st.failed,
    retry_counts := st.retry_counts,
    queued := st.queued }

/-! ## Fixtures: traces exercised by the claims -/

/-- A sample URL. -/
def u0 : String := "http://example.com/isos/a.iso"

/-- One full worker iteration for the URL at the head of the queue:
dequeue, claim, download with network behaviour `net` and `scp` outcome
`scp`, then the locked bookkeeping block. -/
def cycle (net : NetResult) (scp : Bool) : List WAction :=
  [.dequeue, .claim, .finish net scp]

/-- Submit `u` and run it through four worker iterations each of which
fails with a retryable network error. -/
def alwaysFailTrace (u : String) : List WAction :=
  .submit u :: (cycle .httpFail true ++ cycle .httpFail true ++
    cycle .httpFail true ++ cycle .httpFail true)

/-- Recognise the step that performs one transfer attempt. -/
def isFinish : WAction → Bool
  | .finish _ _ => true
  | _ => false

/-- The filesystem in which the destination of `u0` under `/dl` already
holds a complete file. -/
def fsExisting : FS := [(joinPath "/dl" (filenameOf u0), .full)]

/-- A reference-level manager with one active transfer whose record lives
at heap address 0. -/
def mRefs0 : ManagerRefs :=
  { active := [(u0, 0)], completed := [], completed_urls := [],
    failed := [], retry_counts := [], queue := [] }

/-- The heap backing `mRefs0`: address 0 holds the record of `u0`. -/
def heap0 : Heap := [(0, ⟨"a.iso", 0, 0⟩)]

/-! ## Occupancy accounting for the mutual-exclusion claim

A URL "occupies" the system through the queue, through the worker that
holds it, and through the `completed` and `failed` sets.  `mass` counts
these occupancies; a single `submit` contributes one unit, and no step of
the machine manufactures more. -/

/-- Occurrences of `u` in the queue. -/
def qcount : List String → String → Nat
  | [], _ => 0
  | v :: t, u => (if v = u then 1 else 0) + qcount t u

/-- Whether the worker currently holds `u` (dequeued or busy). -/
def holdBit (ph : WorkerPhase) (u : String) : Nat :=
  match ph with
  | .idle => 0
  | .got v => if v = u then 1 else 0
  | .busy v => if v = u then 1 else 0

/-- Membership of `u` in a set, as 0 or 1. -/
def memBit (l : List String) (u : String) : Nat := if u ∈ l then 1 else 0

/-- Total occupancy of `u`: queue occurrences, worker hold, `completed`
membership, `failed` membership. -/
def mass (s : MState) (u : String) : Nat :=
  qcount s.queue u + holdBit s.phase u + memBit s.completed u +
    memBit s.failed u

/-- The `active_downloads` table holds `u` exactly while the worker is
busy with `u` (the claim/erase pairs of `_worker` are inside the lock). -/
def activeSync (s : MState) (u : String) : Prop :=
  hasKeyA s.active u ↔ s.phase = .busy u

/-- How many `submit u` actions a trace contains. -/
def submitsOf : List WAction → String → Nat
  | [], _ => 0
  | .submit v :: t, u => (if v = u then 1 else 0) + submitsOf t u
  | _ :: t, u => submitsOf t u

/-- Pairwise exclusion of `u` between the queue, the active table, the
`completed` set and the `failed` set in state `s`. -/
def exclusiveAt (s : MState) (u : String) : Prop :=
  ¬(u ∈ s.queue ∧ hasKeyA s.active u) ∧
    ¬(u ∈ s.queue ∧ u ∈ s.completed) ∧
    ¬(u ∈ s.queue ∧ u ∈ s.failed) ∧
    ¬(hasKeyA s.active u ∧ u ∈ s.completed) ∧
    ¬(hasKeyA s.active u ∧ u ∈ s.failed) ∧
    ¬(u ∈ s.completed ∧ u ∈ s.failed)

/-- **C1, counterexample.**  The claim asserts that when a URL exhausts
its retries and transitions to `failed`, its `retry_counts` record is
deleted, so a later snapshot's `retry_counts` no longer contains the URL.
On the code this is false: after `u0` fails `max_retries + 1 = 4` times,
`u0` is in `failed` but `retry_counts` still maps it to 3 — the source
only deletes the record on success (distroget.py:712-713), never in the
`max_retries`-exceeded branch (distroget.py:728-729). -/
theorem C1_retry_record_survives_failure_cex :
    (run (localCfg "/dl") (init []) (alwaysFailTrace u0)).failed = [u0] ∧
      lookupA (run (localCfg "/dl") (init [])
          (alwaysFailTrace u0)).retry_counts u0 = some 3 ∧
      ¬ lookupA (run (localCfg "/dl") (init [])
          (alwaysFailTrace u0)).retry_counts u0 = none := by
  refine ⟨by decide, by decide, by decide⟩

/-- **C1, amended.**  For every URL whose transfer fails with a retryable
error on every attempt, after the pool drains the URL is in `failed` and
the total number of transfer attempts equals `max_retries + 1 = 4`; but
the `retry_counts` record is *not* deleted on the transition to failed —
it survives with value `max_retries`, and a subsequent snapshot's
`retry_counts` still contains the URL. -/
theorem C1_bounded_retries_record_kept (u dir : String) :
    (run (localCfg dir) (init []) (alwaysFailTrace u)).failed = [u] ∧
      lookupA (run (localCfg dir) (init [])
          (alwaysFailTrace u)).retry_counts u = some 3 ∧
      (run (localCfg dir) (init []) (alwaysFailTrace u)).queue = [] ∧
      (run (localCfg dir) (init []) (alwaysFailTrace u)).completed = [] ∧
      (alwaysFailTrace u).countP isFinish = (localCfg dir).max_retries + 1 := by
  simp [run, alwaysFailTrace, cycle, wstep, download_file, localCfg,
    localPath, init, fsHas, hasKeyA, lookupA, setA, eraseA, insertSet,
    isFinish, List.countP, List.countP.go]

/-- **C2, counterexample.**  The claim asserts that a terminal error (for
example a 4xx HTTP response, which makes `raise_for_status` raise on the
first attempt) puts the URL in `failed` after exactly one attempt and the
URL is never re-enqueued.  On the code this is false: `_worker` catches
every exception alike and has no retryable/terminal classification
(distroget.py:714-731), so after a first 4xx failure `u0` is re-enqueued
with retry count 1 and is not in `failed`. -/
theorem C2_terminal_error_is_requeued_cex :
    (run (localCfg "/dl") (init [])
        [.submit u0, .dequeue, .claim, .finish .httpFail true]).queue = [u0] ∧
      (run (localCfg "/dl") (init [])
        [.submit u0, .dequeue, .claim, .finish .httpFail true]).failed = [] ∧
      lookupA (run (localCfg "/dl") (init [])
        [.submit u0, .dequeue, .claim, .finish .httpFail true]).retry_counts
        u0 = some 1 := by
  refine ⟨by decide, by decide, by decide⟩

/-- **C2, amended.**  The worker classifies no error as terminal: for
every URL whose first attempt raises (a 4xx response included), the URL is
re-enqueued with retry count 1 and is not yet failed; a URL can only reach
`failed` by exhausting all `max_retries + 1` attempts (the latter is the
content of the C1 theorem's trace). -/
theorem C2_no_terminal_short_circuit (u dir : String) :
    (run (localCfg dir) (init [])
        [.submit u, .dequeue, .claim, .finish .httpFail true]).queue = [u] ∧
      (run (localCfg dir) (init [])
        [.submit u, .dequeue, .claim, .finish .httpFail true]).failed = [] ∧
      lookupA (run (localCfg dir) (init [])
        [.submit u, .dequeue, .claim, .finish .httpFail true]).retry_counts
        u = some 1 := by
  refine ⟨?_, ?_, ?_⟩ <;>
    simp [run, wstep, download_file, localCfg, localPath, init, fsHas,
      hasKeyA, lookupA, setA, eraseA, insertSet]

/-- **C4, counterexample.**  The claim asserts that when the destination
file already exists, submitting the URL and draining leaves the
`completed` and `failed` counts unchanged.  On the code the skip is not
distinguished from a successful download: `_download_file` returns early
(distroget.py:744-746) and `_worker` then adds the URL to `completed`
(distroget.py:706-708), so the completed count grows from 0 to 1. -/
theorem C4_skip_increments_completed_cex :
    (init fsExisting).completed.length = 0 ∧
      (run (localCfg "/dl") (init fsExisting)
        [.submit u0, .dequeue, .claim,
          .finish .httpFail true]).completed.length = 1 ∧
      (run (localCfg "/dl") (init fsExisting)
        [.submit u0, .dequeue, .claim,
          .finish .httpFail true]).completed = [u0] := by
  refine ⟨by decide, by decide, by decide⟩

/-- **C4, amended.**  For every URL whose destination file already exists
in local mode, the transfer short-circuits before any request is made
(`fetched = false`), the file is not rewritten, the retry counter is not
incremented and `failed` is unchanged — but the URL is added to the
`completed` set, so the completed count grows by one rather than staying
unchanged. -/
theorem C4_skip_no_refetch_but_completed (u dir : String) (net : NetResult)
    (scp : Bool) :
    (download_file (localCfg dir)
        [(joinPath dir (filenameOf u), .full)] u net scp) =
      { fs := [(joinPath dir (filenameOf u), .full)], ok := true,
        fetched := false } ∧
      (run (localCfg dir) (init [(joinPath dir (filenameOf u), .full)])
        [.submit u, .dequeue, .claim, .finish net scp]).completed = [u] ∧
      (run (localCfg dir) (init [(joinPath dir (filenameOf u), .full)])
        [.submit u, .dequeue, .claim, .finish net scp]).failed = [] ∧
      (run (localCfg dir) (init [(joinPath dir (filenameOf u), .full)])
        [.submit u, .dequeue, .claim, .finish net scp]).retry_counts = [] ∧
      (run (localCfg dir) (init [(joinPath dir (filenameOf u), .full)])
        [.submit u, .dequeue, .claim, .finish net scp]).fs =
        [(joinPath dir (filenameOf u), .full)] := by
  refine ⟨?_, ?_, ?_, ?_, ?_⟩ <;>
    simp [run, wstep, download_file, localCfg, localPath, init, fsHas,
      hasKeyA, lookupA, setA, eraseA, insertSet]

/-- **C5, counterexample.**  The claim asserts that when the secure-copy
forward step fails, the locally downloaded staging file is left in place
so the operator can retry the relay, and only a successful relay deletes
it.  On the code this is false: `_download_file` runs `scp` with
`check=False`, ignores its result, and executes `os.remove(local_path)`
unconditionally (distroget.py:765-768) — after a failed relay the staging
file is gone.  The download is indeed counted completed, not failed. -/
theorem C5_staging_file_removed_on_failed_forward_cex :
    (run (remoteCfg "/tmp") (init [])
        [.submit u0, .dequeue, .claim, .finish .okStream false]).fs = [] ∧
      (run (remoteCfg "/tmp") (init [])
        [.submit u0, .dequeue, .claim, .finish .okStream false]).completed
        = [u0] ∧
      (run (remoteCfg "/tmp") (init [])
        [.submit u0, .dequeue, .claim, .finish .okStream false]).failed
        = [] := by
  refine ⟨by decide, by decide, by decide⟩

/-- **C5, amended.**  A failed forward does not retroactively mark the
download failed and consumes no retry budget — the outcome of
`_download_file` is independent of the `scp` result — but the local
staging copy is deleted unconditionally, after a failed relay just as
after a successful one. -/
theorem C5_forward_failure_absorbed_but_staging_deleted
    (u tmp : String) (scp scp' : Bool) :
    download_file (remoteCfg tmp) [] u .okStream scp =
        download_file (remoteCfg tmp) [] u .okStream scp' ∧
      (run (remoteCfg tmp) (init [])
        [.submit u, .dequeue, .claim, .finish .okStream scp]).completed
        = [u] ∧
      (run (remoteCfg tmp) (init [])
        [.submit u, .dequeue, .claim, .finish .okStream scp]).failed
        = [] ∧
      (run (remoteCfg tmp) (init [])
        [.submit u, .dequeue, .claim, .finish .okStream scp]).retry_counts
        = [] ∧
      (run (remoteCfg tmp) (init [])
        [.submit u, .dequeue, .claim, .finish .okStream scp]).fs = [] := by
  refine ⟨?_, ?_, ?_, ?_, ?_⟩ <;>
    simp [run, wstep, download_file, remoteCfg, localPath, init, fsHas,
      hasKeyA, lookupA, setA, eraseA, insertSet, fsSet, fsRemove]

/-- **C6, counterexample.**  The claim asserts that a transfer failing
partway through removes the partially written file before the outcome is
recorded.  On the code this is false: `_download_file` has no cleanup
path (distroget.py:748-762) — after a mid-stream connection failure the
truncated file is still at the destination when the worker records the
retry. -/
theorem C6_truncated_file_left_behind_cex :
    lookupA (run (localCfg "/dl") (init [])
        [.submit u0, .dequeue, .claim, .finish .midStreamFail true]).fs
        (joinPath "/dl" (filenameOf u0)) = some .truncated ∧
      (run (localCfg "/dl") (init [])
        [.submit u0, .dequeue, .claim,
          .finish .midStreamFail true]).completed = [] := by
  refine ⟨by decide, by decide⟩

/-- **C6, amended.**  For every URL whose transfer drops mid-stream in
local mode, the truncated file is left at the destination; worse, on the
retry the existing-file check of `_download_file` sees the truncated file
and returns early, so the URL is recorded completed while the corrupt
artifact remains on disk. -/
theorem C6_truncated_file_then_spurious_complete
    (u dir : String) (net : NetResult) (scp : Bool) :
    lookupA (run (localCfg dir) (init [])
        ([.submit u] ++ cycle .midStreamFail true ++ cycle net scp)).fs
        (joinPath dir (filenameOf u)) = some .truncated ∧
      (run (localCfg dir) (init [])
        ([.submit u] ++ cycle .midStreamFail true ++ cycle net scp)).completed
        = [u] ∧
      (run (localCfg dir) (init [])
        ([.submit u] ++ cycle .midStreamFail true ++ cycle net scp)).failed
        = [] := by
  refine ⟨?_, ?_, ?_⟩ <;>
    simp [run, cycle, wstep, download_file, localCfg, localPath, init,
      fsHas, hasKeyA, lookupA, setA, eraseA, insertSet, fsSet, fsRemove]

/-- **C8.**  The claim (and the repository's own test suite,
`tests/test_downloads.py::test_get_status_structure` and
`test_get_status_includes_is_remote`, which calls the missing key a bug)
requires the status snapshot to carry a `downloaded_files` sequence and an
`is_remote` flag besides the six other fields.  Evaluating the embedded
`get_status` at any manager state: the dict holds exactly the keys
`active`, `completed`, `completed_urls`, `failed`, `retry_counts`,
`queued`, and lookups of `downloaded_files` and `is_remote` return
nothing. -/
theorem C8_snapshot_missing_fields (s : MState) :
    (get_status s).map Prod.fst =
        ["active", "completed", "completed_urls", "failed",
          "retry_counts", "queued"] ∧
      lookupA (get_status s) "downloaded_files" = none ∧
      lookupA (get_status s) "is_remote" = none := by
  refine ⟨rfl, rfl, rfl⟩

/-- **C9, counterexample.**  The claim asserts that re-submitting an
already-completed URL is a no-op that leaves the queued count unchanged.
On the code `add_download` is an unconditional `queue.put`
(distroget.py:770-772): after `u0` completes, submitting it again raises
the queued count from 0 to 1. -/
theorem C9_resubmit_completed_url_enqueues_cex :
    (run (localCfg "/dl") (init [])
        [.submit u0, .dequeue, .claim, .finish .okStream true]).queue.length
        = 0 ∧
      (run (localCfg "/dl") (init [])
        [.submit u0, .dequeue, .claim, .finish .okStream true]).completed
        = [u0] ∧
      (run (localCfg "/dl") (init [])
        [.submit u0, .dequeue, .claim, .finish .okStream true,
          .submit u0]).queue.length = 1 := by
  refine ⟨by decide, by decide, by decide⟩

/-- **C9, amended.**  `add_download` performs no duplicate check of any
kind: from every manager state — the URL already completed, queued or
failed included — submitting appends the URL to the queue and raises the
queued count by one. -/
theorem C9_add_download_always_enqueues (cfg : Config) (s : MState)
    (u : String) :
    wstep cfg s (.submit u) = { s with queue := s.queue ++ [u] } ∧
      (wstep cfg s (.submit u)).queue.length = s.queue.length + 1 := by
  exact ⟨rfl, by simp [wstep]⟩

/-- **C10.**  When the manager is constructed with `is_remote = True`,
`_download_file` never takes the existing-file short circuit: the request
is always issued (`fetched = true`) whatever the filesystem already
contains, and on a full stream the file is written to the staging
directory (and then removed after the forward), even when a file of the
same name was already there.  The skip applies only in local mode. -/
theorem C10_remote_mode_never_skips
    (fs : FS) (u dirT dirL : String) (mr : Nat) (net : NetResult)
    (scp : Bool) :
    (download_file ⟨true, dirL, dirT, mr⟩ fs u net scp).fetched = true ∧
      (download_file ⟨true, dirL, dirT, mr⟩ fs u .okStream scp).fs =
        fsRemove (fsSet fs (joinPath dirT (filenameOf u)) .full)
          (joinPath dirT (filenameOf u)) := by
  constructor
  · cases net <;>
      simp [download_file, localPath, joinPath]
  · simp [download_file, localPath, joinPath]

/-- **C3, counterexample.**  The claim asserts that mutating any container
reachable from a returned snapshot never changes the value a subsequent
`get_status` call returns.  On the code this is false: `get_status`
returns `dict(self.active_downloads)` (distroget.py:774-784), a shallow
copy whose per-URL records are the very dict objects the workers mutate.
Writing `progress = 4096` through the record reachable from a snapshot of
`mRefs0` changes the fully dereferenced value of the next snapshot. -/
theorem C3_snapshot_aliases_active_records_cex :
    statusValue (heapWrite heap0 0 ⟨"a.iso", 4096, 0⟩)
        (get_status_refs mRefs0) ≠
      statusValue heap0 (get_status_refs mRefs0) ∧
      heapRead (heapWrite heap0 0 ⟨"a.iso", 4096, 0⟩) 0 ≠
        heapRead heap0 0 := by
  refine ⟨by decide, by decide⟩

/-- **C3, amended.**  `get_status` copies the outer containers but not the
per-URL `ActiveTransfer` records inside `active`: each record in a
returned snapshot is the object the manager itself holds, so an in-place
write through the snapshot (here: incrementing `progress`) is visible both
in manager-internal state and in the value of every subsequent snapshot. -/
theorem C3_snapshot_inner_records_shared (u fn : String) (r n t : Nat) :
    statusValue
        (heapWrite [(r, ⟨fn, n, t⟩)] r ⟨fn, n + 1, t⟩)
        (get_status_refs ⟨[(u, r)], [], [], [], [], []⟩) =
      ⟨[(u, ⟨fn, n + 1, t⟩)], 0, [], 0, [], 0⟩ ∧
      statusValue [(r, ⟨fn, n, t⟩)]
        (get_status_refs ⟨[(u, r)], [], [], [], [], []⟩) =
      ⟨[(u, ⟨fn, n, t⟩)], 0, [], 0, [], 0⟩ ∧
      statusValue
        (heapWrite [(r, ⟨fn, n, t⟩)] r ⟨fn, n + 1, t⟩)
        (get_status_refs ⟨[(u, r)], [], [], [], [], []⟩) ≠
      statusValue [(r, ⟨fn, n, t⟩)]
        (get_status_refs ⟨[(u, r)], [], [], [], [], []⟩) := by
  refine ⟨?_, ?_, ?_⟩ <;>
    simp [statusValue, get_status_refs, heapWrite, heapRead, ActiveRec.mk.injEq]

/-! ## The mutual-exclusion invariant (claim C7) -/

/-- Membership in `insertSet`. -/
lemma mem_insertSet (w v : String) (l : List String) :
    w ∈ insertSet v l ↔ w = v ∨ w ∈ l := by
  unfold insertSet
  split_ifs with h
  · constructor
    · exact fun hw => Or.inr hw
    · rintro (rfl | hw)
      · exact h
      · exact hw
  · exact List.mem_cons

/-- `qcount` distributes over append. -/
lemma qcount_append (l1 l2 : List String) (u : String) :
    qcount (l1 ++ l2) u = qcount l1 u + qcount l2 u := by
  induction l1 with
  | nil => simp [qcount]
  | cons v t ih => simp [qcount, ih]; omega

/-- A member occurs at least once. -/
lemma qcount_pos_of_mem {l : List String} {u : String} (h : u ∈ l) :
    1 ≤ qcount l u := by
  induction l with
  | nil => simp at h
  | cons v t ih =>
    rcases List.mem_cons.mp h with h1 | h2
    · subst h1; simp [qcount]
    · have := ih h2
      simp [qcount]
      omega

/-- `lookupA` after a `setA` update. -/
lemma lookupA_setA {α : Type} (l : List (String × α)) (k k' : String)
    (v : α) :
    lookupA (setA l k v) k' = if k = k' then some v else lookupA l k' := by
  induction l with
  | nil => simp [setA, lookupA]
  | cons p t ih =>
    obtain ⟨a, b⟩ := p
    simp only [setA]
    by_cases hak : a = k
    · subst hak
      by_cases h : a = k' <;> simp [lookupA, h]
    · rw [if_neg hak]
      simp only [lookupA]
      by_cases h : a = k'
      · have hk : ¬k = k' := fun hh => hak (h.trans hh.symm)
        simp [h, hk]
      · simp [h, ih]

/-- `lookupA` after an `eraseA` deletion. -/
lemma lookupA_eraseA {α : Type} (l : List (String × α)) (k k' : String) :
    lookupA (eraseA l k) k' = if k = k' then none else lookupA l k' := by
  induction l with
  | nil => simp [eraseA, lookupA]
  | cons p t ih =>
    obtain ⟨a, b⟩ := p
    simp only [eraseA]
    by_cases hak : a = k
    · subst hak
      rw [if_pos rfl, ih]
      by_cases h : a = k' <;> simp [lookupA, h]
    · rw [if_neg hak]
      simp only [lookupA]
      by_cases h : a = k'
      · have hk : ¬k = k' := fun hh => hak (h.trans hh.symm)
        simp [h, hk]
      · simp [h, ih]

/-- Key membership after a `setA` update. -/
lemma hasKeyA_setA {α : Type} (l : List (String × α)) (k k' : String)
    (v : α) : hasKeyA (setA l k v) k' ↔ k = k' ∨ hasKeyA l k' := by
  unfold hasKeyA
  rw [lookupA_setA]
  by_cases h : k = k' <;> simp [h]

/-- Key membership after an `eraseA` deletion. -/
lemma hasKeyA_eraseA {α : Type} (l : List (String × α)) (k k' : String) :
    hasKeyA (eraseA l k) k' ↔ ¬k = k' ∧ hasKeyA l k' := by
  unfold hasKeyA
  rw [lookupA_eraseA]
  by_cases h : k = k' <;> simp [h]

/-- No step of the machine creates occupancy for `u` except `submit u`,
which creates exactly one unit. -/
lemma mass_wstep (cfg : Config) (s : MState) (a : WAction) (u : String) :
    mass (wstep cfg s a) u ≤
      mass s u + (if a = .submit u then 1 else 0) := by
  cases a with
  | submit v =>
    by_cases hv : v = u <;>
      simp [wstep, mass, qcount_append, qcount, hv] <;> omega
  | dequeue =>
    cases hph : s.phase with
    | idle =>
      cases hq : s.queue with
      | nil => simp [wstep, hph, hq, mass]
      | cons w rest =>
        by_cases hw : w = u <;>
          simp [wstep, hph, hq, mass, qcount, holdBit, hw] <;> omega
    | got w => simp [wstep, hph, mass]
    | busy w => simp [wstep, hph, mass]
  | claim =>
    cases hph : s.phase with
    | idle => simp [wstep, hph, mass]
    | got w =>
      by_cases hw : w = u <;> simp [wstep, hph, mass, holdBit, hw]
    | busy w => simp [wstep, hph, mass]
  | finish net scp =>
    cases hph : s.phase with
    | idle => simp [wstep, hph, mass]
    | got w => simp [wstep, hph, mass]
    | busy w =>
      simp only [wstep, hph]
      split
      · by_cases hw : w = u <;>
          simp [mass, hph, holdBit, memBit, mem_insertSet, hw] <;>
          split_ifs <;> first | omega | tauto
      · split
        · by_cases hw : w = u <;>
            simp [mass, hph, holdBit, memBit, qcount_append, qcount, hw] <;>
            split_ifs <;> first | omega | tauto
        · by_cases hw : w = u <;>
            simp [mass, hph, holdBit, memBit, mem_insertSet, hw] <;>
            split_ifs <;> first | omega | tauto

/-- Every step keeps the `active_downloads` table synchronized with the
worker's phase: `u` has an entry exactly while the worker is busy with
`u`. -/
lemma activeSync_wstep (cfg : Config) (s : MState) (a : WAction)
    (u : String) (h : activeSync s u) : activeSync (wstep cfg s a) u := by
  cases a with
  | submit v => simpa [wstep, activeSync] using h
  | dequeue =>
    cases hph : s.phase with
    | idle =>
      cases hq : s.queue with
      | nil => simpa [wstep, hph, hq, activeSync] using h
      | cons w rest =>
        simp [activeSync, hph] at h
        simpa [wstep, hph, hq, activeSync] using h
    | got w => simpa [wstep, hph, activeSync] using h
    | busy w => simpa [wstep, hph, activeSync] using h
  | claim =>
    cases hph : s.phase with
    | idle => simpa [wstep, hph, activeSync] using h
    | got w =>
      simp [activeSync, hph] at h
      simp [wstep, hph, activeSync, hasKeyA_setA, h, eq_comm]
    | busy w => simpa [wstep, hph, activeSync] using h
  | finish net scp =>
    cases hph : s.phase with
    | idle => simpa [wstep, hph, activeSync] using h
    | got w => simpa [wstep, hph, activeSync] using h
    | busy w =>
      simp [activeSync, hph] at h
      simp only [wstep, hph]
      split
      · simp [activeSync, hasKeyA_eraseA, h]
      · split <;> simp [activeSync, hasKeyA_eraseA, h]

/-- `submitsOf` over a cons. -/
lemma submitsOf_cons (a : WAction) (t : List WAction) (u : String) :
    submitsOf (a :: t) u =
      (if a = .submit u then 1 else 0) + submitsOf t u := by
  cases a <;> simp [submitsOf]

/-- Over a whole trace, the occupancy of `u` grows by at most the number
of `submit u` actions. -/
lemma mass_run (cfg : Config) (t : List WAction) (s : MState)
    (u : String) : mass (run cfg s t) u ≤ mass s u + submitsOf t u := by
  induction t generalizing s with
  | nil => simp [run, submitsOf]
  | cons a t ih =>
    have h1 := ih (wstep cfg s a)
    have h2 := mass_wstep cfg s a u
    have h3 := submitsOf_cons a t u
    show mass (run cfg (wstep cfg s a) t) u ≤ _
    omega

/-- `activeSync` is preserved along every trace. -/
lemma activeSync_run (cfg : Config) (t : List WAction) (s : MState)
    (u : String) (h : activeSync s u) : activeSync (run cfg s t) u := by
  induction t generalizing s with
  | nil => simpa [run] using h
  | cons a t ih => exact ih (wstep cfg s a) (activeSync_wstep cfg s a u h)

/-- A state with occupancy at most one and a synchronized active table
keeps `u` out of any two containers at once. -/
lemma exclusive_of_mass_sync (s : MState) (u : String)
    (hm : mass s u ≤ 1) (hs : activeSync s u) : exclusiveAt s u := by
  unfold mass at hm
  have hqa : u ∈ s.queue → 1 ≤ qcount s.queue u := fun h =>
    qcount_pos_of_mem h
  have hcb : u ∈ s.completed → memBit s.completed u = 1 := fun h => by
    simp [memBit, h]
  have hfb : u ∈ s.failed → memBit s.failed u = 1 := fun h => by
    simp [memBit, h]
  have hab : hasKeyA s.active u → holdBit s.phase u = 1 := fun h => by
    rw [hs.mp h]
    simp [holdBit]
  refine ⟨?_, ?_, ?_, ?_, ?_, ?_⟩
  · rintro ⟨h1, h2⟩
    have := hqa h1
    have := hab h2
    omega
  · rintro ⟨h1, h2⟩
    have := hqa h1
    have := hcb h2
    omega
  · rintro ⟨h1, h2⟩
    have := hqa h1
    have := hfb h2
    omega
  · rintro ⟨h1, h2⟩
    have := hab h1
    have := hcb h2
    omega
  · rintro ⟨h1, h2⟩
    have := hab h1
    have := hfb h2
    omega
  · rintro ⟨h1, h2⟩
    have := hcb h1
    have := hfb h2
    omega

/-- **C7, counterexample.**  The claim asserts that at every observable
instant each submitted URL is in exactly one of the queue, the active
map, the completed set and the failed set — in particular never in none
of them while still in flight.  On the code this is false: `queue.get`
returns outside the lock, and only the subsequent `with self.lock` block
installs the URL in `active_downloads` (distroget.py:694-703).  After
`submit u0` and the dequeue step, the worker holds `u0` (state `got u0`)
while `u0` is in none of the four containers, and no lock is held. -/
theorem C7_dequeued_url_in_no_container_cex :
    (run (localCfg "/dl") (init []) [.submit u0, .dequeue]).phase =
        .got u0 ∧
      u0 ∉ (run (localCfg "/dl") (init []) [.submit u0, .dequeue]).queue ∧
      ¬hasKeyA (run (localCfg "/dl") (init [])
        [.submit u0, .dequeue]).active u0 ∧
      u0 ∉ (run (localCfg "/dl") (init [])
        [.submit u0, .dequeue]).completed ∧
      u0 ∉ (run (localCfg "/dl") (init []) [.submit u0, .dequeue]).failed := by
  refine ⟨by decide, by decide, by decide, by decide, by decide⟩

/-- **C7, amended.**  What the code does guarantee is pairwise exclusion:
for every trace that submits a given URL at most once, at every
observable instant the URL is in at most one of the queue, the active
map, the completed set and the failed set (it can transiently be in none
of them, between the worker's dequeue and its claim).  With duplicate
submissions even this fails, since `add_download` re-enqueues completed
URLs. -/
theorem C7_at_most_one_container (cfg : Config) (fs0 : FS)
    (t : List WAction) (u : String) (h : submitsOf t u ≤ 1) :
    exclusiveAt (run cfg (init fs0) t) u := by
  apply exclusive_of_mass_sync
  · have h1 := mass_run cfg t (init fs0) u
    have h0 : mass (init fs0) u = 0 := by
      simp [mass, init, qcount, holdBit, memBit]
    omega
  · apply activeSync_run
    simp [activeSync, init, hasKeyA, lookupA]

/-- Witness for `C7_at_most_one_container`: the always-failing trace of
`u0` submits it once, and pairwise exclusion holds at its end. -/
theorem C7_at_most_one_container_witness :
    submitsOf (alwaysFailTrace u0) u0 ≤ 1 ∧
      exclusiveAt (run (localCfg "/dl") (init []) (alwaysFailTrace u0))
        u0 :=
  ⟨by decide,
    C7_at_most_one_container (localCfg "/dl") [] (alwaysFailTrace u0) u0
      (by decide)⟩
